import Mathlib

/-!
Shallow embedding of `src/score_feed_parser.py` (a parser turning bot-generated
score-feed sentences into structured records), together with theorems settling
the specification claims.

Python semantics are modelled explicitly:
* `str.split()`            → `pySplit` (split on whitespace runs, drop empties);
* `str.split(sep)` (1-char)→ `splitOnChar` (every separator used by the source
                             — `"T"`, `"\n"`, `"("`, `"-"` — is a single char);
* `sub in s`               → `pyIn` (substring containment);
* `list.index(x)`          → `listIndex` (`ValueError` when absent);
* `l[i]` / `s[i]`          → `pyListGet` (Python indexing: negative indices
                             count from the end, out of range → `IndexError`);
* `s[1:-1]`                → drop first and last character (never fails);
* exceptions               → `Except PyErr`.

Python `str.split()` also splits on Unicode whitespace; the embedding uses the
ASCII whitespace set, which covers the sentence formats the program handles.
-/

/-- Python exception classes observable in the parser.  `valueError` covers
both `list.index` misses (the spec's `MissingKeywordError`) and tuple-unpack
mismatches (the spec's `MalformedSuffixError`); `unboundLocalError` is raised
when a local variable is read before assignment. -/
inductive PyErr where
  | indexError
  | valueError
  | unboundLocalError
  deriving DecidableEq, Repr

instance exceptDecEq {ε α : Type} [DecidableEq ε] [DecidableEq α] :
    DecidableEq (Except ε α) := fun x y =>
  match x, y with
  | .ok a, .ok b => decidable_of_iff (a = b) (by simp)
  | .error a, .error b => decidable_of_iff (a = b) (by simp)
  | .ok _, .error _ => isFalse (by intro h; cases h)
  | .error _, .ok _ => isFalse (by intro h; cases h)

/-- ASCII whitespace, as recognised by Python `str.split()`. -/
def pyIsSpace (c : Char) : Bool :=
  c = ' ' || c = '\t' || c = '\n' || c = '\r' || c = '\x0b' || c = '\x0c'

/-- Worker for `str.split()`: `acc` holds the reversed current token. -/
def splitWsAux (acc : List Char) : List Char → List (List Char)
  | [] => if acc = [] then [] else [acc.reverse]
  | c :: cs =>
    if pyIsSpace c then
      if acc = [] then splitWsAux [] cs else acc.reverse :: splitWsAux [] cs
    else splitWsAux (c :: acc) cs

/-- Python `content.split()`: whitespace-separated tokens, no empties. -/
def pySplit (s : String) : List String :=
  (splitWsAux [] s.data).map String.mk

/-- Python `s.split(sep)` for a one-character separator: keeps empty parts,
always returns at least one part. -/
def splitOnChar (c : Char) : List Char → List (List Char)
  | [] => [[]]
  | x :: xs =>
    if x = c then [] :: splitOnChar c xs
    else
      match splitOnChar c xs with
      | [] => [[x]]
      | t :: ts => (x :: t) :: ts

/-- Substring test over character lists (Python `sub in s`). -/
def containsSub (sub : List Char) : List Char → Bool
  | [] => sub.isEmpty
  | c :: cs => sub.isPrefixOf (c :: cs) || containsSub sub cs

/-- Python `sub in s` for strings. -/
def pyIn (sub s : String) : Bool :=
  containsSub sub.data s.data

/-- Python `list.index(a)` position (first occurrence), `none` when absent. -/
def listIndex (a : String) : List String → Option Nat
  | [] => none
  | x :: xs => if x = a then some 0 else (listIndex a xs).map (· + 1)

/-- Python list/string indexing `l[i]`: negative `i` counts from the end;
out-of-range access raises `IndexError`. -/
def pyListGet {α : Type} (l : List α) (i : Int) : Except PyErr α :=
  if i < 0 then
    if (l.length : Int) + i < 0 then .error .indexError
    else
      match l.get? ((l.length : Int) + i).toNat with
      | some x => .ok x
      | none => .error .indexError
  else
    match l.get? i.toNat with
    | some x => .ok x
    | none => .error .indexError

/-- Python `sep.join(parts)` over character lists. -/
def joinWith (sep : List Char) : List (List Char) → List Char
  | [] => []
  | [w] => w
  | w :: ws => w ++ sep ++ joinWith sep ws

/-- Python `" ".join(words)` for strings. -/
def joinSpaceStr (ws : List String) : String :=
  String.mk (joinWith [' '] (ws.map String.data))

/-- Python `content.split("\n")[-1]`: the last line of the content. -/
def pyLastLine (content : String) : String :=
  String.mk ((splitOnChar '\n' content.data).getLastD [])

/-! ## The program (translated from `src/score_feed_parser.py`) -/

/-- The module-level `platforms` alias table, in source (insertion) order. -/
def platforms : List (String × List String) :=
  [("android", ["Android", ":android:", "<:android:"]),
   ("ios", [":ios:", ""]),
   ("windows", ["🪟"]),
   ("web", ["🌐", "web"]),
   ("unknown", ["❓"])]

/-- The `for name, alias in platforms.items(): if platform in alias: ... break`
loop: first canonical name whose alias list contains the raw token. -/
def lookupPlatform (p : String) : Option String :=
  ((platforms.find? (fun entry => entry.2.contains p)).map (fun entry => entry.1))

/-- Function `parse_time`: `return time.split("T")`.  Total — it never raises. -/
def parse_time (time : String) : List String :=
  (splitOnChar 'T' time.data).map String.mk

/-- The backtick-stripping idiom shared by `get_usernames` and `get_level`:
`if s[0] == "`" and s[-1] == "`": s = s[1:-1]`.  Reading `s[0]` of an empty
string raises `IndexError`; the Python `and` short-circuits, and `s[-1]`
cannot fail once `s[0]` succeeded. -/
def stripBackticks (s : String) : Except PyErr String :=
  match pyListGet s.data 0 with
  | .error e => .error e
  | .ok c0 =>
    if c0 = '`' then
      match pyListGet s.data (-1) with
      | .error e => .error e
      | .ok cl =>
        if cl = '`' then .ok (String.mk ((s.data.drop 1).dropLast))
        else .ok s
    else .ok s

/-- Result of `get_usernames`: `[era, mode, *usernames]`. -/
structure Usernames where
  era : Nat
  mode : Nat
  player1 : String
  player2 : Option String
  deriving DecidableEq, Repr

/-- Function `get_usernames`: era detection, candidate tokens 0 and 2, backtick strip,
1p/2p mode from token 1, `(2 players mode)` override (which resets `mode`
but leaves `usernames[1]` as set by the token-1 branch). -/
def get_usernames (content : String) : Except PyErr Usernames :=
  let era : Nat := if pyIn "(era 1)" content then 1 else 2
  let split_content :=
    if pyIn "(era 1)" content then (pySplit content).drop 2 else pySplit content
  match pyListGet split_content 0 with
  | .error e => .error e
  | .ok raw0 =>
  match pyListGet split_content 2 with
  | .error e => .error e
  | .ok raw2 =>
  match stripBackticks raw0 with
  | .error e => .error e
  | .ok u0 =>
  match stripBackticks raw2 with
  | .error e => .error e
  | .ok u2 =>
  match pyListGet split_content 1 with
  | .error e => .error e
  | .ok t1 =>
    let mp : Nat × Option String := if t1 ≠ "and" then (1, none) else (2, some u2)
    let mode := if pyIn "(2 players mode)" content then 2 else mp.1
    .ok ⟨era, mode, u0, mp.2⟩

/-- The de-spaced annotation body of `get_country_and_platform`:
`data = content[:-1].split("(")[-1]` followed by removal of `" "` characters
(only the space character, exactly as the source's list comprehension). -/
def annotBody (content : String) : List Char :=
  ((splitOnChar '(' content.data.dropLast).getLastD []).filter (fun c => c ≠ ' ')

/-- The result of `data.split("-")`: the dash-separated segments of the annotation body. -/
def annotSegments (content : String) : List String :=
  (splitOnChar '-' (annotBody content)).map String.mk

/-- Function `get_country_and_platform`: `(None, None)` when the content does not end
with `)`; one segment → country only; two segments → alias lookup, where a
raw token matching no alias leaves `platform_name` unassigned and the
following read raises `UnboundLocalError`; three or more segments → the
unpack `country, platform = data` raises `ValueError`. -/
def get_country_and_platform (content : String) :
    Except PyErr (Option String × Option String) :=
  match pyListGet content.data (-1) with
  | .error e => .error e
  | .ok last =>
    if last ≠ ')' then .ok (none, none)
    else
      match annotSegments content with
      | [country] => .ok (some country, none)
      | [country, p] =>
        match lookupPlatform p with
        | some name => .ok (some country, some name)
        | none => .error .unboundLocalError
      | _ => .error .valueError

/-- The level-collection loop: take words after `in` until one starts with
`(`.  Words produced by `split()` are never empty, so `word[0]` cannot fail
here; `head?` reads the first character. -/
def collectLevel : List String → List String
  | [] => []
  | w :: ws => if w.data.head? = some '(' then [] else w :: collectLevel ws

/-- Function `get_level`: anchor on the first token `in` (`ValueError` when absent),
join the collected words with spaces, strip backticks — where indexing the
joined name raises `IndexError` when no word was collected.  The trailing
`"".join(level_name)` of the source is the identity on a string. -/
def get_level (content : String) : Except PyErr String :=
  let split_content := pySplit content
  match listIndex "in" split_content with
  | none => .error .valueError
  | some i =>
    stripBackticks (joinSpaceStr (collectLevel (split_content.drop (i + 1))))

/-- Function `get_score`: the token at Python index `index("in") - 1`; when `in` is
the token at position 0 this index is `-1`, i.e. the last token. -/
def get_score (content : String) : Except PyErr String :=
  let split_content := pySplit content
  match listIndex "in" split_content with
  | none => .error .valueError
  | some i => pyListGet split_content ((i : Int) - 1)

/-- The 8 fields returned by `parse_content`. -/
structure ContentRec where
  era : Nat
  mode : Nat
  player1 : String
  player2 : Option String
  level : String
  score : String
  country : Option String
  platform : Option String
  deriving DecidableEq, Repr

/-- Function `parse_content`: keep only the last line, then era/mode/players; country
and platform only for mode 1; then level and score. -/
def parse_content (content : String) : Except PyErr ContentRec :=
  let line := pyLastLine content
  match get_usernames line with
  | .error e => .error e
  | .ok u =>
    match (if u.mode = 1 then get_country_and_platform line
           else .ok (none, none)) with
    | .error e => .error e
    | .ok cp =>
      match get_level line with
      | .error e => .error e
      | .ok level =>
        match get_score line with
        | .error e => .error e
        | .ok score =>
          .ok ⟨u.era, u.mode, u.player1, u.player2, level, score, cp.1, cp.2⟩

/-- A cell of the heterogeneous Python row list. -/
inductive PyVal where
  | int (i : Nat)
  | str (s : String)
  | none
  deriving DecidableEq, Repr

/-- An optional string cell as written into the row. -/
def optVal : Option String → PyVal
  | Option.none => PyVal.none
  | Option.some s => PyVal.str s

/-- The 8 cells `[era, mode, player1, player2, level, score, country,
platform]` contributed by `parse_content`. -/
def contentFields (r : ContentRec) : List PyVal :=
  [PyVal.int r.era, PyVal.int r.mode, PyVal.str r.player1, optVal r.player2,
   PyVal.str r.level, PyVal.str r.score, optVal r.country, optVal r.platform]

/-- One raw input row: `[time, content, reactions]`. -/
structure RawRow where
  time : String
  content : String
  reactions : String
  deriving DecidableEq, Repr

/-- Function `parse_row`: `[*parsed_time, *parsed_content, reactions]`. -/
def parse_row (row : RawRow) : Except PyErr (List PyVal) :=
  match parse_content row.content with
  | .error e => .error e
  | .ok rec =>
    .ok ((parse_time row.time).map PyVal.str ++ contentFields rec
          ++ [PyVal.str row.reactions])

/-- The batch loop of `main`: try each row, append successes, drop failures. -/
def mainLoop : List RawRow → List (List PyVal)
  | [] => []
  | r :: rs =>
    match parse_row r with
    | .ok rec => rec :: mainLoop rs
    | .error _ => mainLoop rs

/-- The era-2, 2-player sentence template of claim C5, for arbitrary player
names, score token and level name. -/
def c5content (A B S L : String) : String :=
  "`" ++ A ++ "` and `" ++ B ++ "` increased their score to " ++ S ++ " in `"
    ++ L ++ "` (US-android)"

/-! ## Helper lemmas -/

theorem splitOnChar_ne_nil (c : Char) (l : List Char) : splitOnChar c l ≠ [] := by
  induction l with
  | nil => simp [splitOnChar]
  | cons x xs ih =>
    simp only [splitOnChar]
    by_cases hx : x = c
    · simp [hx]
    · simp only [hx, if_false]
      cases h : splitOnChar c xs with
      | nil => exact absurd h ih
      | cons t ts => simp

theorem splitOnChar_length (c : Char) (l : List Char) :
    (splitOnChar c l).length = l.count c + 1 := by
  induction l with
  | nil => simp [splitOnChar]
  | cons x xs ih =>
    simp only [splitOnChar]
    by_cases hx : x = c
    · simp [hx, List.count_cons, ih]
    · simp only [hx, if_false]
      cases h : splitOnChar c xs with
      | nil => exact absurd h (splitOnChar_ne_nil c xs)
      | cons t ts =>
        rw [h] at ih
        simp only [List.length_cons] at ih ⊢
        simp [List.count_cons, hx, ih]

theorem splitOnChar_of_count_zero (c : Char) (l : List Char) (h : l.count c = 0) :
    splitOnChar c l = [l] := by
  induction l with
  | nil => rfl
  | cons x xs ih =>
    simp only [List.count_cons] at h
    have hx : ¬ (x = c) := by
      intro hxc
      simp [hxc] at h
    have hxs : xs.count c = 0 := by
      by_cases hc : c = x
      · exact absurd hc.symm hx
      · simp [hc] at h
        omega
    simp only [splitOnChar, hx, if_false, ih hxs]

theorem listIndex_lt_length (a : String) (l : List String) (n : Nat)
    (h : listIndex a l = some n) : n < l.length := by
  induction l generalizing n with
  | nil => simp [listIndex] at h
  | cons x xs ih =>
    simp only [listIndex] at h
    by_cases hx : x = a
    · rw [if_pos hx] at h
      injection h with h1
      simp only [List.length_cons]
      omega
    · simp only [hx, if_false, Option.map_eq_some'] at h
      obtain ⟨m, hm, hmn⟩ := h
      have := ih m hm
      simp only [List.length_cons]
      omega

theorem get?_of_lt {α : Type} (l : List α) (j : Nat) (d : α) (h : j < l.length) :
    l.get? j = some (l.getD j d) := by
  rw [List.getD_eq_getElem?_getD, ← List.get?_eq_getElem?]
  cases hg : l.get? j with
  | none => rw [List.get?_eq_none] at hg; omega
  | some x => rfl

theorem getLastD_cons {α : Type} (x : α) (l : List α) (d : α) :
    List.getLastD (x :: l) d = List.getLastD l x := by
  cases l <;> simp [List.getLastD]

theorem get?_pred_length {α : Type} (l : List α) (d : α) (h : l ≠ []) :
    l.get? (l.length - 1) = some (l.getLastD d) := by
  induction l generalizing d with
  | nil => exact absurd rfl h
  | cons x xs ih =>
    cases xs with
    | nil => rfl
    | cons y ys =>
      have step := ih (d := x) (by simp)
      have hlen : (x :: y :: ys).length - 1 = (y :: ys).length - 1 + 1 := by
        simp
      rw [hlen]
      simp only [List.get?]
      rw [step, getLastD_cons x (y :: ys) d]

theorem pyListGet_nat {α : Type} (l : List α) (j : Nat) (d : α) (h : j < l.length) :
    pyListGet l (j : Int) = .ok (l.getD j d) := by
  unfold pyListGet
  have h0 : ¬ ((j : Int) < 0) := by omega
  rw [if_neg h0, Int.toNat_natCast, get?_of_lt l j d h]

theorem pyListGet_neg_one {α : Type} (l : List α) (d : α) (h : l ≠ []) :
    pyListGet l (-1) = .ok (l.getLastD d) := by
  unfold pyListGet
  have hlen : 1 ≤ l.length := List.length_pos.mpr h
  have h1 : (-1 : Int) < 0 := by norm_num
  have h2 : ¬ ((l.length : Int) + (-1) < 0) := by omega
  rw [if_pos h1, if_neg h2]
  have h3 : ((l.length : Int) + (-1)).toNat = l.length - 1 := by omega
  rw [h3, get?_pred_length l d h]

/-! ## Claim theorems -/

/-- Claim C1, counterexample: for the annotation `(US-xbox)` — platform token
`xbox` matching no alias — `get_country_and_platform` does not return the raw
token; it raises `UnboundLocalError` (`platform_name` is never assigned), so
the row fails, contradicting the claim. -/
theorem get_country_and_platform_unknown_cex :
    get_country_and_platform "foo (US-xbox)" = .error .unboundLocalError := by
  decide

/-- Claim C1 (corrected): for every mode-1 sentence whose trailing annotation
splits into exactly two dash-separated segments, when the platform segment
matches no alias in the fixed table the alias-replacement loop leaves
`platform_name` unassigned and `get_country_and_platform` raises an
`UnboundLocalError`-class failure, so the row fails. -/
theorem get_country_and_platform_unknown (content country p : String)
    (h1 : pyListGet content.data (-1) = .ok ')')
    (h2 : annotSegments content = [country, p])
    (h3 : lookupPlatform p = none) :
    get_country_and_platform content = .error .unboundLocalError := by
  unfold get_country_and_platform
  rw [h1]
  simp [h2, h3]

/-- Witness for the corrected C1 theorem at the concrete content
`bar (DE-switch)`. -/
theorem get_country_and_platform_unknown_w :
    pyListGet "bar (DE-switch)".data (-1) = .ok ')' ∧
    annotSegments "bar (DE-switch)" = ["DE", "switch"] ∧
    lookupPlatform "switch" = none ∧
    get_country_and_platform "bar (DE-switch)" = .error .unboundLocalError :=
  ⟨by decide, by decide, by decide,
    get_country_and_platform_unknown "bar (DE-switch)" "DE" "switch"
      (by decide) (by decide) (by decide)⟩

/-- Claim C2, counterexample: with `in` as the first token, `get_score` does
not raise an `IndexError`-class failure; Python index `-1` wraps around and
the LAST token is returned (`get_score "in alpha beta" = "beta"`). -/
theorem get_score_in_first_cex : get_score "in alpha beta" = .ok "beta" := by
  decide

/-- Claim C2 (corrected): `get_score` returns the token immediately preceding
the first token equal to `in`; with no `in` token it fails with the
`ValueError` of `list.index` (the spec's `MissingKeywordError`); but when `in`
is the first token, index `-1` selects the LAST token (Python negative
indexing) instead of failing. -/
theorem get_score_cases (content : String) :
    (listIndex "in" (pySplit content) = none ∧
      get_score content = .error .valueError) ∨
    (listIndex "in" (pySplit content) = some 0 ∧
      get_score content = .ok ((pySplit content).getLastD "")) ∨
    (∃ j, listIndex "in" (pySplit content) = some (j + 1) ∧
      get_score content = .ok ((pySplit content).getD j "")) := by
  cases h : listIndex "in" (pySplit content) with
  | none =>
    exact Or.inl ⟨rfl, by simp [get_score, h]⟩
  | some i =>
    cases i with
    | zero =>
      refine Or.inr (Or.inl ⟨rfl, ?_⟩)
      have hne : pySplit content ≠ [] := by
        intro hnil
        rw [hnil] at h
        simp [listIndex] at h
      simp only [get_score, h]
      have : ((0 : Nat) : Int) - 1 = -1 := by norm_num
      rw [this, pyListGet_neg_one (pySplit content) "" hne]
    | succ j =>
      refine Or.inr (Or.inr ⟨j, rfl, ?_⟩)
      have hlt : j < (pySplit content).length := by
        have := listIndex_lt_length "in" (pySplit content) (j + 1) h
        omega
      simp only [get_score, h]
      have : ((j + 1 : Nat) : Int) - 1 = (j : Int) := by push_cast; ring
      rw [this, pyListGet_nat (pySplit content) j "" hlt]

/-- Claim C4, counterexample: a timestamp with no `T` makes `parse_time`
return the 1-element list containing the input unchanged — no
`MalformedTimestampError`-class failure occurs and the result is not a
2-element sequence. -/
theorem parse_time_no_sep_cex :
    parse_time "2024-05-06 07:08" = ["2024-05-06 07:08"] := rfl

/-- Claim C4 (corrected): `parse_time` is total, splitting on EVERY occurrence
of `T` (not only the first): the result has one element more than the number
of `T` occurrences, and it equals `[timestamp]` (no failure) exactly when the
timestamp contains no `T`. -/
theorem parse_time_splits (t : String) :
    (parse_time t).length = t.data.count 'T' + 1 ∧
    (parse_time t = [t] ↔ t.data.count 'T' = 0) := by
  constructor
  · simp [parse_time, splitOnChar_length]
  · constructor
    · intro h
      have hl := congrArg List.length h
      simp [parse_time, splitOnChar_length] at hl
      exact hl
    · intro h
      simp [parse_time, splitOnChar_of_count_zero 'T' t.data h]

/-- Witness for the corrected C4 theorem at the concrete timestamp `aTb`. -/
theorem parse_time_splits_w :
    (parse_time "aTb").length = "aTb".data.count 'T' + 1 ∧
    (parse_time "aTb" = ["aTb"] ↔ "aTb".data.count 'T' = 0) :=
  parse_time_splits "aTb"

/-- Claim C6 (confirmed): the batch loop of `main` produces exactly the
successfully parsed rows, in input order — the output is the `filterMap` of
the per-row parser over the input, so a failing row is omitted and affects
no other row. -/
theorem mainLoop_filterMap (rows : List RawRow) :
    mainLoop rows = rows.filterMap (fun r => (parse_row r).toOption) := by
  induction rows with
  | nil => rfl
  | cons r rs ih =>
    cases h : parse_row r <;> simp [mainLoop, h, Except.toOption, ih]

/-- Claim C7 (confirmed): `parse_content` is a pure function of its input —
two invocations on the same content string yield identical results. -/
theorem parse_content_deterministic (content : String) :
    parse_content content = parse_content content := rfl

/-- Claim C8 (confirmed): when the annotation body splits into a country and
an EMPTY platform segment (e.g. a trailing dash), the empty string matches the
`ios` alias list and `get_country_and_platform` normalizes the platform to
`ios`. -/
theorem get_country_and_platform_empty_ios (content country : String)
    (h1 : pyListGet content.data (-1) = .ok ')')
    (h2 : annotSegments content = [country, ""]) :
    get_country_and_platform content = .ok (some country, some "ios") := by
  unfold get_country_and_platform
  rw [h1]
  simp [h2, show lookupPlatform "" = some "ios" from by decide]

/-- Witness for the C8 theorem at the concrete content `f (US-)`. -/
theorem get_country_and_platform_empty_ios_w :
    pyListGet "f (US-)".data (-1) = .ok ')' ∧
    annotSegments "f (US-)" = ["US", ""] ∧
    get_country_and_platform "f (US-)" = .ok (some "US", some "ios") :=
  ⟨by decide, by decide,
    get_country_and_platform_empty_ios "f (US-)" "US" (by decide) (by decide)⟩

/-- Claim C9 (confirmed): when the token `in` exists but no level word is
collected (the next token starts with `(`, or `in` is the last token), the
joined level name is empty and indexing `level_name[0]` raises an
`IndexError`-class failure in `get_level`, so the row is dropped. -/
theorem get_level_empty_index_error (content : String) (j : Nat)
    (hj : listIndex "in" (pySplit content) = some j)
    (hdrop : (pySplit content).drop (j + 1) = [] ∨
      ∃ w ws, (pySplit content).drop (j + 1) = w :: ws ∧
        w.data.head? = some '(') :
    get_level content = .error .indexError := by
  simp only [get_level, hj]
  rcases hdrop with hnil | ⟨w, ws, he, hh⟩
  · rw [hnil]
    decide
  · rw [he]
    simp only [collectLevel, hh, if_pos]
    decide

/-- Witness for the C9 theorem at the concrete content `x 1 in (a)`. -/
theorem get_level_empty_index_error_w :
    listIndex "in" (pySplit "x 1 in (a)") = some 2 ∧
    get_level "x 1 in (a)" = .error .indexError :=
  ⟨by decide,
    get_level_empty_index_error "x 1 in (a)" 2 (by decide)
      (Or.inr ⟨"(a)", [], by decide, by decide⟩)⟩

/-- Function `get_usernames` either satisfies the player2-iff-mode-2 invariant, or the
`(2 players mode)` override fired on a sentence whose token 1 is not `and`,
leaving `mode = 2` with `player2` already reset to `None`. -/
theorem get_usernames_mode_player2 (content : String) (u : Usernames)
    (h : get_usernames content = .ok u) :
    ((u.player2.isSome = true) ↔ u.mode = 2) ∨
    (u.mode = 2 ∧ u.player2 = none ∧
      pyIn "(2 players mode)" content = true) := by
  simp only [get_usernames] at h
  split at h
  · exact Except.noConfusion h
  · split at h
    · exact Except.noConfusion h
    · split at h
      · exact Except.noConfusion h
      · split at h
        · exact Except.noConfusion h
        · split at h
          · exact Except.noConfusion h
          · rename_i t1 hE
            simp only [Except.ok.injEq] at h
            subst h
            by_cases ht1 : t1 = "and"
            · by_cases h2p : pyIn "(2 players mode)" content <;>
                simp [ht1, h2p]
            · by_cases h2p : pyIn "(2 players mode)" content
              · exact Or.inr (by simp [ht1, h2p])
              · exact Or.inl (by simp [ht1, h2p])

/-- Claim C3, counterexample: the sentence
`` `A` beat `B` with 5 in X (2 players mode) `` (token 1 is not `and`, but the
override substring is present) parses to a record with `mode = 2` and
`player2` ABSENT, so the claimed invariant fails for override-forced rows. -/
theorem parse_content_override_cex :
    parse_content "`A` beat `B` with 5 in X (2 players mode)" =
      .ok ⟨2, 2, "A", none, "X", "5", none, none⟩ := by
  decide

/-- Claim C3 (corrected): for every record produced by the orchestrator,
either `player2` is present iff `mode == 2`, or the record was forced to
`mode = 2` by the `(2 players mode)` override while `player2` had already
been reset to absent — so the invariant holds except for override-forced
records, where `mode = 2` and `player2` is absent. -/
theorem parse_content_player2_mode (content : String) (rec : ContentRec)
    (h : parse_content content = .ok rec) :
    ((rec.player2.isSome = true) ↔ rec.mode = 2) ∨
    (rec.mode = 2 ∧ rec.player2 = none ∧
      pyIn "(2 players mode)" (pyLastLine content) = true) := by
  simp only [parse_content] at h
  split at h
  · exact Except.noConfusion h
  · rename_i u hu
    split at h
    · exact Except.noConfusion h
    · rename_i cp hcp
      split at h
      · exact Except.noConfusion h
      · rename_i level hl
        split at h
        · exact Except.noConfusion h
        · rename_i score hs
          simp only [Except.ok.injEq] at h
          subst h
          simpa using get_usernames_mode_player2 (pyLastLine content) u hu

/-- Witness for the corrected C3 theorem at a concrete 2-player sentence. -/
theorem parse_content_player2_mode_w :
    (parse_content "`C` and `D` increased their score to 9 in `Y` (FR-web)" =
      .ok ⟨2, 2, "C", some "D", "Y", "9", none, none⟩) ∧
    ((((⟨2, 2, "C", some "D", "Y", "9", none, none⟩ : ContentRec).player2.isSome
        = true) ↔
        (⟨2, 2, "C", some "D", "Y", "9", none, none⟩ : ContentRec).mode = 2) ∨
      ((⟨2, 2, "C", some "D", "Y", "9", none, none⟩ : ContentRec).mode = 2 ∧
        (⟨2, 2, "C", some "D", "Y", "9", none, none⟩ : ContentRec).player2
          = none ∧
        pyIn "(2 players mode)"
          (pyLastLine "`C` and `D` increased their score to 9 in `Y` (FR-web)")
          = true)) :=
  ⟨by decide,
    parse_content_player2_mode
      "`C` and `D` increased their score to 9 in `Y` (FR-web)"
      ⟨2, 2, "C", some "D", "Y", "9", none, none⟩ (by decide)⟩

/-- Claim C10 (confirmed): a successfully parsed row has
`10 + (occurrences of T in the timestamp)` cells — the 11 documented cells
exactly when the timestamp contains exactly one `T`. -/
theorem parse_row_field_count (row : RawRow) (rec : List PyVal)
    (h : parse_row row = .ok rec) :
    rec.length = 10 + row.time.data.count 'T' ∧
    (rec.length = 11 ↔ row.time.data.count 'T' = 1) := by
  simp only [parse_row] at h
  split at h
  · exact Except.noConfusion h
  rename_i cr hc
  simp only [Except.ok.injEq] at h
  subst h
  have hlen : ((parse_time row.time).map PyVal.str ++ contentFields cr
      ++ [PyVal.str row.reactions]).length = 10 + row.time.data.count 'T' := by
    simp [parse_time, contentFields, splitOnChar_length]
    omega
  exact ⟨hlen, by rw [hlen]; omega⟩

/-- Witness for the C10 theorem at a concrete parsed row with one `T`. -/
theorem parse_row_field_count_w :
    (parse_row ⟨"2024-01-02T03:04",
        "`E` and `F` increased their score to 8 in `Z` (US-android)", "3"⟩ =
      .ok [.str "2024-01-02", .str "03:04", .int 2, .int 2, .str "E",
        .str "F", .str "Z", .str "8", .none, .none, .str "3"]) ∧
    (([.str "2024-01-02", .str "03:04", .int 2, .int 2, .str "E",
        .str "F", .str "Z", .str "8", .none, .none,
        .str "3"] : List PyVal).length =
      10 + ("2024-01-02T03:04" : String).data.count 'T' ∧
    (([.str "2024-01-02", .str "03:04", .int 2, .int 2, .str "E",
        .str "F", .str "Z", .str "8", .none, .none,
        .str "3"] : List PyVal).length = 11 ↔
      ("2024-01-02T03:04" : String).data.count 'T' = 1)) :=
  ⟨by decide,
    parse_row_field_count
      ⟨"2024-01-02T03:04",
        "`E` and `F` increased their score to 8 in `Z` (US-android)", "3"⟩
      [.str "2024-01-02", .str "03:04", .int 2, .int 2, .str "E",
        .str "F", .str "Z", .str "8", .none, .none, .str "3"]
      (by decide)⟩

/-! ## Lemmas for the C5 template -/

theorem splitWsAux_nonspace (t : List Char)
    (h : ∀ c ∈ t, pyIsSpace c = false) (acc cs : List Char) :
    splitWsAux acc (t ++ cs) = splitWsAux (t.reverse ++ acc) cs := by
  induction t generalizing acc with
  | nil => simp
  | cons x xs ih =>
    have hx : pyIsSpace x = false := h x (by simp)
    have hacc : xs.reverse ++ (x :: acc) = (x :: xs).reverse ++ acc := by
      simp [List.reverse_cons, List.append_assoc]
    calc splitWsAux acc ((x :: xs) ++ cs)
        = splitWsAux (x :: acc) (xs ++ cs) := by
          show splitWsAux acc (x :: (xs ++ cs)) = splitWsAux (x :: acc) (xs ++ cs)
          simp only [splitWsAux, hx, Bool.false_eq_true, if_false]
      _ = splitWsAux (xs.reverse ++ (x :: acc)) cs :=
          ih (fun c hc => h c (by simp [hc])) (x :: acc)
      _ = splitWsAux ((x :: xs).reverse ++ acc) cs := by rw [hacc]

theorem splitWsAux_token (w : List Char) (hw : w ≠ [])
    (h : ∀ c ∈ w, pyIsSpace c = false) (cs : List Char) :
    splitWsAux [] (w ++ ' ' :: cs) = w :: splitWsAux [] cs := by
  rw [splitWsAux_nonspace w h [] (' ' :: cs)]
  simp [splitWsAux, pyIsSpace, hw, List.reverse_eq_nil_iff]

theorem splitWsAux_final (w : List Char) (hw : w ≠ [])
    (h : ∀ c ∈ w, pyIsSpace c = false) :
    splitWsAux [] w = [w] := by
  have h2 := splitWsAux_nonspace w h [] []
  rw [List.append_nil] at h2
  rw [h2]
  simp [splitWsAux, hw, List.reverse_eq_nil_iff]

theorem quoted_data (s : String) :
    ("`" ++ s ++ "`").data = '`' :: s.data ++ ['`'] := by
  simp [String.data_append]

theorem strMk_data (s : String) : String.mk s.data = s := rfl

theorem strMk_quoted (s : String) :
    String.mk ('`' :: (s.data ++ ['`'])) = "`" ++ s ++ "`" := by
  rw [← strMk_data ("`" ++ s ++ "`"), quoted_data]
  rfl

theorem quoted_nonspace (s : String)
    (hs : ∀ c ∈ s.data, pyIsSpace c = false) :
    ∀ c ∈ '`' :: s.data ++ ['`'], pyIsSpace c = false := by
  intro c hc
  rcases List.mem_append.mp hc with h1 | h2
  · rcases List.mem_cons.mp h1 with h3 | h4
    · subst h3; rfl
    · exact hs c h4
  · rw [List.mem_singleton] at h2
    subst h2; rfl

theorem pyListGet_cons_zero {α : Type} (x : α) (l : List α) :
    pyListGet (x :: l) 0 = .ok x := rfl

theorem pyListGet_cons_one {α : Type} (x y : α) (l : List α) :
    pyListGet (x :: y :: l) 1 = .ok y := rfl

theorem pyListGet_cons_two {α : Type} (x y z : α) (l : List α) :
    pyListGet (x :: y :: z :: l) 2 = .ok z := rfl

theorem pyListGet_concat_neg_one {α : Type} (l : List α) (x : α) :
    pyListGet (l ++ [x]) (-1) = .ok x := by
  rw [pyListGet_neg_one (l ++ [x]) x (by simp), List.getLastD_concat]

theorem stripBackticks_quoted (s : String) :
    stripBackticks ("`" ++ s ++ "`") = .ok s := by
  have h0 : pyListGet ("`" ++ s ++ "`").data 0 = .ok '`' := by
    rw [quoted_data]
    exact pyListGet_cons_zero '`' (s.data ++ ['`'])
  have h1 : pyListGet ("`" ++ s ++ "`").data (-1) = .ok '`' := by
    rw [quoted_data]
    exact pyListGet_concat_neg_one ('`' :: s.data) '`'
  have hslice : ((("`" ++ s ++ "`").data).drop 1).dropLast = s.data := by
    rw [quoted_data]
    simp
  unfold stripBackticks
  rw [h0, h1, hslice]
  rfl

theorem quoted_ne_in (s : String) : ("`" ++ s ++ "`") ≠ "in" := by
  intro h
  have hd := congrArg String.data h
  rw [quoted_data] at hd
  simp at hd

theorem c5content_data (A B S L : String) :
    (c5content A B S L).data =
      ('`' :: A.data ++ ['`']) ++ ' ' ::
        ("and".data ++ ' ' ::
          (('`' :: B.data ++ ['`']) ++ ' ' ::
            ("increased".data ++ ' ' ::
              ("their".data ++ ' ' ::
                ("score".data ++ ' ' ::
                  ("to".data ++ ' ' ::
                    (S.data ++ ' ' ::
                      ("in".data ++ ' ' ::
                        (('`' :: L.data ++ ['`']) ++ ' ' ::
                          "(US-android)".data))))))))) := by
  simp [c5content, String.data_append]

theorem c5_tokens (A B S L : String)
    (hA : ∀ c ∈ A.data, pyIsSpace c = false)
    (hB : ∀ c ∈ B.data, pyIsSpace c = false)
    (hS : ∀ c ∈ S.data, pyIsSpace c = false)
    (hL : ∀ c ∈ L.data, pyIsSpace c = false)
    (hSne : S.data ≠ []) :
    splitWsAux [] (c5content A B S L).data =
      ['`' :: A.data ++ ['`'], "and".data, '`' :: B.data ++ ['`'],
        "increased".data, "their".data, "score".data, "to".data, S.data,
        "in".data, '`' :: L.data ++ ['`'], "(US-android)".data] := by
  rw [c5content_data]
  rw [splitWsAux_token ('`' :: A.data ++ ['`']) (by simp) (quoted_nonspace A hA)]
  rw [splitWsAux_token ("and".data) (by decide) (by decide)]
  rw [splitWsAux_token ('`' :: B.data ++ ['`']) (by simp) (quoted_nonspace B hB)]
  rw [splitWsAux_token ("increased".data) (by decide) (by decide)]
  rw [splitWsAux_token ("their".data) (by decide) (by decide)]
  rw [splitWsAux_token ("score".data) (by decide) (by decide)]
  rw [splitWsAux_token ("to".data) (by decide) (by decide)]
  rw [splitWsAux_token S.data hSne hS]
  rw [splitWsAux_token ("in".data) (by decide) (by decide)]
  rw [splitWsAux_token ('`' :: L.data ++ ['`']) (by simp) (quoted_nonspace L hL)]
  rw [splitWsAux_final ("(US-android)".data) (by decide) (by decide)]

theorem c5_pySplit (A B S L : String)
    (hA : ∀ c ∈ A.data, pyIsSpace c = false)
    (hB : ∀ c ∈ B.data, pyIsSpace c = false)
    (hS : ∀ c ∈ S.data, pyIsSpace c = false)
    (hL : ∀ c ∈ L.data, pyIsSpace c = false)
    (hSne : S.data ≠ []) :
    pySplit (c5content A B S L) =
      ["`" ++ A ++ "`", "and", "`" ++ B ++ "`", "increased", "their", "score",
        "to", S, "in", "`" ++ L ++ "`", "(US-android)"] := by
  unfold pySplit
  rw [c5_tokens A B S L hA hB hS hL hSne]
  simp [strMk_quoted, strMk_data]

/-- Claim C5 (confirmed): for every well-formed era-2, 2-player sentence of
the template `` `A` and `B` increased their score to S in `L` (US-android) ``
(names, score token and level name arbitrary single tokens, with the obvious
well-formedness side conditions), `parse_content` yields era 2, mode 2,
player1 = A, player2 = B, level = L, score = S, and — mode being 2, not 1 —
country and platform both absent. -/
theorem parse_content_era2_two_player (A B S L : String)
    (hA : ∀ c ∈ A.data, pyIsSpace c = false)
    (hB : ∀ c ∈ B.data, pyIsSpace c = false)
    (hS : ∀ c ∈ S.data, pyIsSpace c = false)
    (hL : ∀ c ∈ L.data, pyIsSpace c = false)
    (hSne : S.data ≠ []) (hSin : S ≠ "in")
    (hEra : pyIn "(era 1)" (c5content A B S L) = false)
    (h2p : pyIn "(2 players mode)" (c5content A B S L) = false)
    (hNl : pyLastLine (c5content A B S L) = c5content A B S L) :
    parse_content (c5content A B S L) =
      .ok ⟨2, 2, A, some B, L, S, none, none⟩ := by
  have htoks := c5_pySplit A B S L hA hB hS hL hSne
  have hidx : listIndex "in"
      ["`" ++ A ++ "`", "and", "`" ++ B ++ "`", "increased", "their", "score",
        "to", S, "in", "`" ++ L ++ "`", "(US-android)"] = some 8 := by
    simp [listIndex, quoted_ne_in A, quoted_ne_in B, hSin]
  have hu : get_usernames (c5content A B S L) = .ok ⟨2, 2, A, some B⟩ := by
    simp [get_usernames, hEra, htoks, h2p, pyListGet_cons_zero,
      pyListGet_cons_one, pyListGet_cons_two, stripBackticks_quoted]
  have hlev : get_level (c5content A B S L) = .ok L := by
    simp only [get_level, htoks, hidx]
    have hdrop : List.drop (8 + 1)
        ["`" ++ A ++ "`", "and", "`" ++ B ++ "`", "increased", "their",
          "score", "to", S, "in", "`" ++ L ++ "`", "(US-android)"] =
        ["`" ++ L ++ "`", "(US-android)"] := rfl
    rw [hdrop]
    have hhead : ("`" ++ L ++ "`").data.head? = some '`' := by
      rw [quoted_data]
      rfl
    simp [collectLevel, hhead, joinSpaceStr, joinWith, strMk_data,
      strMk_quoted, stripBackticks_quoted]
  have hscore : get_score (c5content A B S L) = .ok S := by
    simp only [get_score, htoks, hidx]
    norm_num
    rfl
  simp [parse_content, hNl, hu, hlev, hscore]

/-- Witness for the C5 theorem at a concrete instantiation of the template. -/
theorem parse_content_era2_two_player_w :
    parse_content (c5content "Ann" "Bob" "42" "Dune") =
      .ok ⟨2, 2, "Ann", some "Bob", "Dune", "42", none, none⟩ :=
  parse_content_era2_two_player "Ann" "Bob" "42" "Dune"
    (by decide) (by decide) (by decide) (by decide) (by decide) (by decide)
    (by decide) (by decide) (by decide)
